import Mathlib

/-! # didkit Go bindings and the go-example web service

A shallow embedding of `lib/go/main.go` (the cgo wrappers around the DID/VC
toolkit) and of `examples/go-example/main.go` (the gin web service that creates
HMAC-bound credential offers and verifies presentations).

Conventions of the embedding:

* A Go `string` is a Lean `String`; the conversion `[]byte(s)` is left implicit.
* A Go interface value (`interface{}`, the value type of `gin.H`) is a `GoValue`;
  every dynamic type that can occur in the service has its own constructor, so a
  type assertion `x.(T)` is a function into `Option` whose `none` is the runtime
  panic of the failed assertion.
* The package-level maps `credentials` and `requests` are the two fields of
  `State`; handlers take the state and return the new one.
* Everything outside the repository (the C toolkit behind cgo, `crypto/hmac`,
  `time`, `encoding/json`, the QR encoder, the `.env` file) is a field of `Env`.
  Theorems quantify over every `Env`; `sampleEnv` is one concrete environment.
* `time.Now()` is the argument `now` of the handlers that read the clock.
-/

set_option autoImplicit false

namespace Didkit

/-! ## Go values -/

/-- Result of `json.Unmarshal` into an `interface{}`: the JSON document. -/
inductive Json where
  | null
  | bool (b : Bool)
  | num (x : ℚ)
  | str (s : String)
  | arr (l : List Json)
  | obj (m : List (String × Json))

/-- Dynamic values of the service. `H none` is the nil map of type `gin.H`,
`nil` is the nil interface. `map` is `map[string]interface{}` and `slice` is
`[]interface{}`, the types `encoding/json` produces; `strings` is `[]string`. -/
inductive GoValue where
  | nil
  | bool (b : Bool)
  | float64 (x : ℚ)
  | string (s : String)
  | strings (l : List String)
  | slice (l : List GoValue)
  | map (m : List (String × GoValue))
  | H (m : Option (List (String × GoValue)))

/-- Content of a non-nil Go map with string keys. -/
abbrev GoMap := List (String × GoValue)

/-- Map read `m[k]`: the zero value (nil interface) when the key is absent. -/
def GoMap.get : GoMap → String → GoValue
  | [], _ => GoValue.nil
  | (k', v) :: rest, k => if k' = k then v else GoMap.get rest k

/-- Map write `m[k] = v`. -/
def GoMap.set : GoMap → String → GoValue → GoMap
  | [], k, v => [(k, v)]
  | (k', v') :: rest, k, v =>
    if k' = k then (k, v) :: rest else (k', v') :: GoMap.set rest k v

/-- Read from a variable of type `gin.H`; reading a nil map gives the zero value. -/
def H.get (m : Option GoMap) (k : String) : GoValue :=
  match m with
  | none => GoValue.nil
  | some m => GoMap.get m k

/-- Type assertion `x.(gin.H)`. -/
def GoValue.assertH : GoValue → Option (Option GoMap)
  | GoValue.H m => some m
  | _ => none

/-- Type assertion `x.(string)`. -/
def GoValue.assertString : GoValue → Option String
  | GoValue.string s => some s
  | _ => none

/-- Type assertion `x.([]string)`. -/
def GoValue.assertStrings : GoValue → Option (List String)
  | GoValue.strings l => some l
  | _ => none

/-- Interface comparison `x == y`: `none` is the runtime panic raised when both
sides hold the same uncomparable dynamic type (a map or a slice). -/
def GoValue.ifaceEq : GoValue → GoValue → Option Bool
  | GoValue.nil, GoValue.nil => some true
  | GoValue.bool a, GoValue.bool b => some (a == b)
  | GoValue.float64 a, GoValue.float64 b => some (decide (a = b))
  | GoValue.string a, GoValue.string b => some (a == b)
  | GoValue.strings _, GoValue.strings _ => none
  | GoValue.slice _, GoValue.slice _ => none
  | GoValue.map _, GoValue.map _ => none
  | GoValue.H _, GoValue.H _ => none
  | _, _ => some false

mutual
/-- Value stored by `json.Unmarshal` for a JSON document decoded into `interface{}`. -/
def Json.toGo : Json → GoValue
  | Json.null => GoValue.nil
  | Json.bool b => GoValue.bool b
  | Json.num x => GoValue.float64 x
  | Json.str s => GoValue.string s
  | Json.arr l => GoValue.slice (Json.toGoList l)
  | Json.obj m => GoValue.map (Json.toGoFields m)
/-- Elements of a decoded JSON array. -/
def Json.toGoList : List Json → List GoValue
  | [] => []
  | j :: js => Json.toGo j :: Json.toGoList js
/-- Members of a decoded JSON object, in document order. -/
def Json.toGoFields : List (String × Json) → List (String × GoValue)
  | [] => []
  | (k, j) :: js => (k, Json.toGo j) :: Json.toGoFields js
end

/-- Runtime panics of the service. -/
inductive Panic where
  | typeAssertion
  | indexOutOfRange
  | nilMapWrite
  | uncomparable
  deriving DecidableEq, Repr

/-! ## Time -/

/-- Duration in nanoseconds (`time.Duration`). -/
abbrev Duration := Int

/-- One second. -/
def Second : Duration := 1000000000

/-- One minute. -/
def Minute : Duration := 60 * Second

/-- Instant in UTC: nanoseconds since 0001-01-01T00:00:00Z, the zero `time.Time`. -/
structure Time where
  ns : Int
  deriving DecidableEq, Repr

/-- Zero value `time.Time{}`. -/
def Time.zero : Time := ⟨0⟩

/-- Method `t.After(u)`. -/
def Time.After (t u : Time) : Bool := decide (u.ns < t.ns)

/-- Method `t.Add(d)`. -/
def Time.Add (t : Time) (d : Duration) : Time := ⟨t.ns + d⟩

/-! ## Reference model of `time.RFC3339` formatting and parsing (UTC)

Used by `sampleEnv`; the handlers reach the `time` package through `Env`. -/

/-- Leap years of the proleptic Gregorian calendar. -/
def isLeap (year : Int) : Bool :=
  year % 4 = 0 && (year % 100 ≠ 0 || year % 400 = 0)

/-- Days of a month (`daysIn`). -/
def daysIn (month : Nat) (year : Int) : Nat :=
  if month = 2 then (if isLeap year then 29 else 28)
  else if month = 4 ∨ month = 6 ∨ month = 9 ∨ month = 11 then 30
  else 31

/-- Days from 0001-01-01 to the given civil date. -/
def daysFromCivil (year : Int) (month day : Nat) : Int :=
  let y : Int := if month ≤ 2 then year - 1 else year
  let era : Int := y / 400
  let yoe : Int := y - era * 400
  let mp : Int := if month > 2 then (month : Int) - 3 else (month : Int) + 9
  let doy : Int := (153 * mp + 2) / 5 + (day : Int) - 1
  let doe : Int := yoe * 365 + yoe / 4 - yoe / 100 + doy
  era * 146097 + doe - 306

/-- Civil date (year, month, day) of a day count since 0001-01-01. -/
def civilFromDays (days : Int) : Int × Nat × Nat :=
  let z : Int := days + 306
  let era : Int := z / 146097
  let doe : Int := z - era * 146097
  let yoe : Int := (doe - doe / 1460 + doe / 36524 - doe / 146096) / 365
  let y : Int := yoe + era * 400
  let doy : Int := doe - (365 * yoe + yoe / 4 - yoe / 100)
  let mp : Int := (5 * doy + 2) / 153
  let d : Int := doy - (153 * mp + 2) / 5 + 1
  let m : Int := if mp < 10 then mp + 3 else mp - 9
  (if m ≤ 2 then y + 1 else y, m.toNat, d.toNat)

/-- The call `time.Date(year, month, day, hour, min, sec, nsec, time.UTC)` for
in-range arguments. -/
def Date (year : Int) (month day hour min sec nsec : Nat) : Time :=
  ⟨(((daysFromCivil year month day * 24 + hour) * 60 + min) * 60 + sec) * 1000000000 + nsec⟩

/-- Decimal digit. -/
def digitChar (n : Nat) : Char := Char.ofNat (48 + n % 10)

/-- Decimal digits of a natural number, most significant first. -/
def natDigits : Nat → Nat → List Char
  | 0, _ => []
  | fuel + 1, n => if n < 10 then [digitChar n] else natDigits fuel (n / 10) ++ [digitChar n]

/-- Helper `appendInt(b, x, width)` of package time: sign, then the decimal
digits zero-padded on the left to `width`. -/
def appendInt (x : Int) (width : Nat) : List Char :=
  let ds := natDigits (x.natAbs + 1) x.natAbs
  (if x < 0 then ['-'] else []) ++ List.replicate (width - ds.length) '0' ++ ds

/-- Method `t.Format(time.RFC3339)` for a UTC time. -/
def formatRFC3339 (t : Time) : String :=
  let secs : Int := t.ns / 1000000000
  let days : Int := secs / 86400
  let rem : Nat := (secs % 86400).toNat
  let (y, m, d) := civilFromDays days
  ⟨appendInt y 4 ++ ['-'] ++ appendInt m 2 ++ ['-'] ++ appendInt d 2 ++ ['T'] ++
    appendInt (rem / 3600) 2 ++ [':'] ++ appendInt (rem / 60 % 60) 2 ++ [':'] ++
    appendInt (rem % 60) 2 ++ ['Z']⟩

/-- Local function `parseUint` of `parseRFC3339`: all characters are digits and
the value lies in `[lo, hi]`. -/
def parseUint (s : List Char) (lo hi : Nat) : Option Nat :=
  if s.all Char.isDigit then
    let x := s.foldl (fun acc c => acc * 10 + (c.toNat - 48)) 0
    if x < lo ∨ hi < x then none else some x
  else none

/-- Nanoseconds of a fractional second given its digits (at most nine are kept). -/
def parseNanoseconds (digits : List Char) : Nat :=
  let ds := digits.take 9
  ds.foldl (fun acc c => acc * 10 + (c.toNat - 48)) 0 * 10 ^ (9 - ds.length)

/-- Zone suffix of an RFC 3339 timestamp: the offset in seconds. -/
def parseZone (s : List Char) : Option Int :=
  match s with
  | ['Z'] => some 0
  | [sg, h1, h2, c, m1, m2] =>
    if (sg = '-' ∨ sg = '+') ∧ c = ':' then
      match parseUint [h1, h2] 0 23, parseUint [m1, m2] 0 59 with
      | some hr, some mm =>
        let off : Int := ((hr * 60 + mm) * 60 : Nat)
        some (if sg = '-' then -off else off)
      | _, _ => none
    else none
  | _ => none

/-- Parser of the RFC 3339 grammar `YYYY-MM-DDTHH:MM:SS[.fraction](Z|±HH:MM)`
with every field in range: `none` is a parse error. On these strings it gives
the instant `time.Parse(time.RFC3339, s)` gives. `time.Parse` accepts a few
forms outside the grammar as well (a one-digit hour, a comma before the
fraction, zone hour 24 or zone minute 60), which this parser rejects; for that
reason the handlers take the parser from `Env` and the theorems hold for
every parser. -/
def parseRFC3339 (s : String) : Option Time :=
  match s.data with
  | y1 :: y2 :: y3 :: y4 :: c4 :: mo1 :: mo2 :: c7 :: d1 :: d2 :: c10 :: h1 :: h2 :: c13 ::
      mi1 :: mi2 :: c16 :: s1 :: s2 :: rest =>
    if c4 = '-' ∧ c7 = '-' ∧ c10 = 'T' ∧ c13 = ':' ∧ c16 = ':' then
      match parseUint [y1, y2, y3, y4] 0 9999, parseUint [mo1, mo2] 1 12 with
      | some year, some month =>
        match parseUint [d1, d2] 1 (daysIn month year), parseUint [h1, h2] 0 23,
            parseUint [mi1, mi2] 0 59, parseUint [s1, s2] 0 59 with
        | some day, some hour, some min, some sec =>
          let frac : List Char :=
            match rest with
            | '.' :: r => r.takeWhile Char.isDigit
            | _ => []
          let nsec := parseNanoseconds frac
          let zone := if frac = [] then rest else rest.drop (frac.length + 1)
          match parseZone zone with
          | some off => some ⟨(Date year month day hour min sec nsec).ns - off * 1000000000⟩
          | none => none
        | _, _, _, _ => none
      | _, _ => none
    else none
  | _ => none

/-! ## Reference model of `crypto/sha256`, `crypto/hmac` and `encoding/hex` -/

/-- Truncation to a 32-bit word. -/
def w32 (x : Nat) : Nat := x % 4294967296

/-- Rotate a 32-bit word right. -/
def rotr (x n : Nat) : Nat := w32 ((x >>> n) ||| (x <<< (32 - n)))

/-- Round constants of SHA-256. -/
def sha256K : List Nat :=
  [0x428a2f98, 0x71374491, 0xb5c0fbcf, 0xe9b5dba5, 0x3956c25b, 0x59f111f1, 0x923f82a4, 0xab1c5ed5,
   0xd807aa98, 0x12835b01, 0x243185be, 0x550c7dc3, 0x72be5d74, 0x80deb1fe, 0x9bdc06a7, 0xc19bf174,
   0xe49b69c1, 0xefbe4786, 0x0fc19dc6, 0x240ca1cc, 0x2de92c6f, 0x4a7484aa, 0x5cb0a9dc, 0x76f988da,
   0x983e5152, 0xa831c66d, 0xb00327c8, 0xbf597fc7, 0xc6e00bf3, 0xd5a79147, 0x06ca6351, 0x14292967,
   0x27b70a85, 0x2e1b2138, 0x4d2c6dfc, 0x53380d13, 0x650a7354, 0x766a0abb, 0x81c2c92e, 0x92722c85,
   0xa2bfe8a1, 0xa81a664b, 0xc24b8b70, 0xc76c51a3, 0xd192e819, 0xd6990624, 0xf40e3585, 0x106aa070,
   0x19a4c116, 0x1e376c08, 0x2748774c, 0x34b0bcb5, 0x391c0cb3, 0x4ed8aa4a, 0x5b9cca4f, 0x682e6ff3,
   0x748f82ee, 0x78a5636f, 0x84c87814, 0x8cc70208, 0x90befffa, 0xa4506ceb, 0xbef9a3f7, 0xc67178f2]

/-- Chaining value of SHA-256: eight 32-bit words. -/
structure Sha256State where
  a : Nat
  b : Nat
  c : Nat
  d : Nat
  e : Nat
  f : Nat
  g : Nat
  h : Nat

/-- Initial chaining value. -/
def sha256Init : Sha256State :=
  ⟨0x6a09e667, 0xbb67ae85, 0x3c6ef372, 0xa54ff53a, 0x510e527f, 0x9b05688c, 0x1f83d9ab, 0x5be0cd19⟩

/-- Message schedule, newest word first: extends the reversed list by `n` words. -/
def sha256Schedule : Nat → List Nat → List Nat
  | 0, r => r
  | n + 1, r =>
    let x15 := r.getD 14 0
    let x2 := r.getD 1 0
    let s0 := rotr x15 7 ^^^ rotr x15 18 ^^^ (x15 >>> 3)
    let s1 := rotr x2 17 ^^^ rotr x2 19 ^^^ (x2 >>> 10)
    sha256Schedule n (w32 (s1 + r.getD 6 0 + s0 + r.getD 15 0) :: r)

/-- One round of the compression function. -/
def sha256Round (s : Sha256State) (kw : Nat × Nat) : Sha256State :=
  let S1 := rotr s.e 6 ^^^ rotr s.e 11 ^^^ rotr s.e 25
  let ch := (s.e &&& s.f) ^^^ ((s.e ^^^ 0xffffffff) &&& s.g)
  let t1 := s.h + S1 + ch + kw.1 + kw.2
  let S0 := rotr s.a 2 ^^^ rotr s.a 13 ^^^ rotr s.a 22
  let maj := (s.a &&& s.b) ^^^ (s.a &&& s.c) ^^^ (s.b &&& s.c)
  ⟨w32 (t1 + S0 + maj), s.a, s.b, s.c, w32 (s.d + t1), s.e, s.f, s.g⟩

/-- Big-endian words of a byte string. -/
def beWords : List Nat → List Nat
  | b0 :: b1 :: b2 :: b3 :: rest => (((b0 * 256 + b1) * 256 + b2) * 256 + b3) :: beWords rest
  | _ => []

/-- Compression of one 64-byte block. -/
def sha256Block (s : Sha256State) (block : List Nat) : Sha256State :=
  let w := (sha256Schedule 48 (beWords block).reverse).reverse
  let t := (sha256K.zip w).foldl sha256Round s
  ⟨w32 (s.a + t.a), w32 (s.b + t.b), w32 (s.c + t.c), w32 (s.d + t.d),
   w32 (s.e + t.e), w32 (s.f + t.f), w32 (s.g + t.g), w32 (s.h + t.h)⟩

/-- Hash of the padded message, block by block. -/
def sha256Blocks : Nat → Sha256State → List Nat → Sha256State
  | 0, s, _ => s
  | n + 1, s, bytes => sha256Blocks n (sha256Block s (bytes.take 64)) (bytes.drop 64)

/-- Big-endian bytes of a word of the given byte width. -/
def beBytes : Nat → Nat → List Nat
  | 0, _ => []
  | n + 1, x => beBytes n (x / 256) ++ [x % 256]

/-- Message padding of SHA-256. -/
def sha256Pad (msg : List Nat) : List Nat :=
  msg ++ [0x80] ++ List.replicate ((119 - msg.length % 64) % 64) 0 ++ beBytes 8 (msg.length * 8)

/-- Bytes of a word as `uint8` values, big-endian. -/
def wordBytes (x : Nat) : List UInt8 :=
  [UInt8.ofNat (x / 16777216), UInt8.ofNat (x / 65536), UInt8.ofNat (x / 256), UInt8.ofNat x]

/-- State of the hash after the whole padded message. -/
def sha256Final (msg : List Nat) : Sha256State :=
  let p := sha256Pad msg
  sha256Blocks (p.length / 64) sha256Init p

/-- The digest `sha256.Sum256(msg)`. -/
def sha256 (msg : List Nat) : List UInt8 :=
  let s := sha256Final msg
  wordBytes s.a ++ wordBytes s.b ++ wordBytes s.c ++ wordBytes s.d ++
  wordBytes s.e ++ wordBytes s.f ++ wordBytes s.g ++ wordBytes s.h

/-- HMAC (RFC 2104) with SHA-256: `hmac.New(sha256.New, key)`, `Write(msg)`, `Sum(nil)`. -/
def hmacSha256 (key msg : List Nat) : List UInt8 :=
  let k0 := if key.length > 64 then (sha256 key).map UInt8.toNat else key
  let k := k0 ++ List.replicate (64 - k0.length) 0
  let inner := sha256 (k.map (fun b => b ^^^ 0x36) ++ msg)
  sha256 (k.map (fun b => b ^^^ 0x5c) ++ inner.map UInt8.toNat)

/-- Bytes of a Go string. -/
def stringBytes (s : String) : List Nat :=
  (s.data.flatMap String.utf8EncodeChar).map UInt8.toNat

/-- Lower-case hexadecimal digit (`hextable`). -/
def hexDigit (n : Nat) : Char :=
  if n < 10 then Char.ofNat (48 + n) else Char.ofNat (87 + n)

/-- The call `hex.EncodeToString(src)`. -/
def hexEncodeToString (src : List UInt8) : String :=
  ⟨src.flatMap (fun b => [hexDigit (b.toNat / 16), hexDigit (b.toNat % 16)])⟩

/-! ## Environment: everything outside the repository -/

/-- Toolkit calls made through cgo, in the order of the log of a request. -/
inductive Call where
  | GenerateEd25519Key
  | KeyToDID (methodName key : String)
  | IssueCredential (credential options key : String)
  | VerifyCredential (credential options : String)
  | VerifyPresentation (presentation options : String)
  deriving DecidableEq, Repr

/-- External collaborators of the service. A C function of the toolkit returns
`none` for the null pointer. `getenv` is `os.Getenv` after `godotenv.Load(".env")`
succeeded (when it fails `goDotEnvVariable` ends the process with `log.Fatalf`).
`hmacSum key msg` is `mac.Sum(nil)` of `hmac.New(sha256.New, key)` after
`mac.Write(msg)`, 32 bytes. `timeFormat` and `timeParse` are `Format` and
`time.Parse` with layout `time.RFC3339`. `jsonMarshal` is `json.Marshal` and
`jsonDecode` the document read by `json.Unmarshal`, `none` for their errors.
`qrcodeEncode content` is `qrcode.Encode(content, qrcode.Medium, 256)` with the
text of its error. -/
structure Env where
  getenv : String → String
  hmacSum : String → String → { d : List UInt8 // d.length = 32 }
  timeFormat : Time → String
  timeParse : String → Option Time
  jsonMarshal : GoValue → Option String
  jsonDecode : String → Option Json
  qrcodeEncode : String → Except String (List UInt8)
  base64Encode : List UInt8 → String
  uuidNewString : String
  didkit_vc_generate_ed25519_key : Option String
  didkit_key_to_did : String → String → Option String
  didkit_vc_issue_credential : String → String → String → Option String
  didkit_vc_verify_credential : String → String → Option String
  didkit_vc_verify_presentation : String → String → Option String
  didkit_error_code : Int
  didkit_error_message : String

/-! ## lib/go/main.go -/

/-- Error value of the bindings. -/
structure DIDKitError where
  code : Int
  message : String
  deriving DecidableEq, Repr

/-- Function `GetDIDKitError`. -/
def GetDIDKitError (env : Env) : DIDKitError :=
  ⟨env.didkit_error_code, env.didkit_error_message⟩

/-- Function `GenerateEd25519Key`: the pair `(string, error)`. -/
def GenerateEd25519Key (env : Env) : String × Option DIDKitError :=
  match env.didkit_vc_generate_ed25519_key with
  | some result => (result, none)
  | none => ("", some (GetDIDKitError env))

/-- Function `KeyToDID`. -/
def KeyToDID (env : Env) (methodName key : String) : String × Option DIDKitError :=
  match env.didkit_key_to_did methodName key with
  | some result => (result, none)
  | none => ("", some (GetDIDKitError env))

/-- Function `IssueCredential`. -/
def IssueCredential (env : Env) (credential options key : String) :
    String × Option DIDKitError :=
  match env.didkit_vc_issue_credential credential options key with
  | some result => (result, none)
  | none => ("", some (GetDIDKitError env))

/-- Function `VerifyCredential`. -/
def VerifyCredential (env : Env) (credential options : String) : String × Option DIDKitError :=
  match env.didkit_vc_verify_credential credential options with
  | some result => (result, none)
  | none => ("", some (GetDIDKitError env))

/-- Function `VerifyPresentation`. -/
def VerifyPresentation (env : Env) (presentation options : String) :
    String × Option DIDKitError :=
  match env.didkit_vc_verify_presentation presentation options with
  | some result => (result, none)
  | none => ("", some (GetDIDKitError env))

/-! ## examples/go-example/main.go -/

/-- The package-level maps `credentials` (Offer Store) and `requests`
(Exchange Store), both created as `gin.H{}`. -/
structure State where
  credentials : GoMap
  requests : GoMap

/-- What a handler does to the connection: `c.JSON`, `c.HTML`, or a panic,
which the recovery middleware of `gin.Default()` catches. -/
inductive Outcome where
  | json (status : Nat) (body : GoValue)
  | html (status : Nat) (name : String) (data : GoValue)
  | panic (p : Panic)

/-- Effect of one request: the response, the maps afterwards and the toolkit
calls made, in order. -/
structure Result where
  outcome : Outcome
  state : State
  calls : List Call

/-- HTTP status of an outcome; a recovered panic is answered with 500. -/
def Outcome.status : Outcome → Nat
  | Outcome.json status _ => status
  | Outcome.html status _ _ => status
  | Outcome.panic _ => 500

/-- The body `gin.H{"error": msg}`. -/
def errorBody (msg : String) : GoValue :=
  GoValue.H (some [("error", GoValue.string msg)])

/-- Function `goDotEnvVariable`. -/
def goDotEnvVariable (env : Env) (key : String) : String :=
  env.getenv key

/-- Function `generateHMAC`. -/
def generateHMAC (env : Env) (query : String) : String :=
  let key := goDotEnvVariable env "HMAC_SECRET"
  hexEncodeToString (env.hmacSum key query).val

/-- Comparison `hm.Equal([]byte(a), []byte(b))`: equal length and equal content. -/
def hmEqual (a b : String) : Bool :=
  decide (a = b)

/-- The map literal stored by `generateCredential`. -/
def credentialOffer (id issuer issuance expiration expires : String) : GoMap :=
  [("type", GoValue.string "CredentialOffer"),
   ("credentialPreview", GoValue.H (some
      [("@context", GoValue.strings
          ["https://www.w3.org/2018/credentials/v1", "https://schema.org/"]),
       ("id", GoValue.string id),
       ("type", GoValue.string "VerifiableCredential"),
       ("issuer", GoValue.string issuer),
       ("issuanceDate", GoValue.string issuance),
       ("expirationDate", GoValue.string expiration),
       ("credentialSubject", GoValue.H (some []))])),
   ("expires", GoValue.string expires)]

/-- Function `generateCredential`: stores the offer under `id` and returns it
(the assertion `credentials[id].(gin.H)` on the value just stored succeeds). -/
def generateCredential (st : State) (id issuer issuance expiration expires : String) :
    Option GoMap × State :=
  let offer := credentialOffer id issuer issuance expiration expires
  (some offer, { st with credentials := GoMap.set st.credentials id (GoValue.H (some offer)) })

/-- The call `strings.Split(s, sep)` for a separator of one character. -/
def stringsSplit : List Char → Char → List (List Char)
  | [], _ => [[]]
  | c :: cs, sep =>
    if c = sep then [] :: stringsSplit cs sep
    else
      match stringsSplit cs sep with
      | [] => [[c]]
      | p :: ps => (c :: p) :: ps

/-- Index expression `s[i]` on a slice: `none` is the index-out-of-range panic. -/
def sliceIndex {α : Type} (s : List α) (i : Int) : Option α :=
  if i < 0 then none else s.get? i.toNat

/-- The call `json.Unmarshal([]byte(data), &target)` for `target` of type
`gin.H`: a JSON object is decoded into the map (allocated when nil, otherwise
reused, keeping its other entries); `null` sets the map to nil; on every
error the target is left as it was. -/
def jsonUnmarshalH (env : Env) (data : String) (target : Option GoMap) : Option GoMap :=
  match env.jsonDecode data with
  | some (Json.obj fields) =>
    some ((Json.toGoFields fields).foldl (fun m kv => GoMap.set m kv.1 kv.2) (target.getD []))
  | some Json.null => none
  | _ => target

/-- Function `issueCredential`. -/
def issueCredential (env : Env) (credential : Option GoMap) :
    Except Panic (Option GoMap) × List Call :=
  match (H.get credential "issuer").assertString with
  | none => (Except.error Panic.typeAssertion, [])
  | some issuer =>
    let vm := stringsSplit issuer.data ':'
    match sliceIndex vm ((vm.length : Int) - 1) with
    | none => (Except.error Panic.indexOutOfRange, [])
    | some last =>
      let options := GoValue.H (some
        [("proofPurpose", GoValue.string "assertionMethod"),
         ("verificationMethod", GoValue.string (issuer ++ "#" ++ String.mk last))])
      let credentialStr := (env.jsonMarshal (GoValue.H credential)).getD ""
      let opt := (env.jsonMarshal options).getD ""
      let key := goDotEnvVariable env "KEY"
      let vc := (IssueCredential env credentialStr opt key).1
      let jsonVc := jsonUnmarshalH env vc none
      (Except.ok jsonVc, [Call.IssueCredential credentialStr opt key])

/-- Function `generateVP`; the challenge is `uuid.NewString()`. -/
def generateVP (env : Env) (st : State) (host : String) : GoValue × State :=
  let challenge := env.uuidNewString
  let credentialQuery := GoValue.H (some
    [("reason", GoValue.string "Sign in"),
     ("example", GoValue.H (some
        [("@context", GoValue.strings ["https://www.w3.org/2018/credentials/v1"]),
         ("type", GoValue.string "VerifiableCredential")]))])
  let query := GoValue.H (some
    [("type", GoValue.string "QueryByExample"),
     ("credentialQuery", credentialQuery)])
  let request := GoValue.H (some
    [("type", GoValue.string "VerifiablePresentationRequest"),
     ("query", query),
     ("challenge", GoValue.string challenge),
     ("domain", GoValue.string host)])
  (request, { st with requests := GoMap.set st.requests challenge request })

/-- Handler of `GET /index`. -/
def getIndex (st : State) : Result :=
  ⟨Outcome.html 200 "index.tmpl" (GoValue.H (some [])), st, []⟩

/-- The query string `fmt.Sprintf("?id=%v&expires=%v", id, expires)`, built by
`GET /get-qr` before signing and by `GET /offer` before checking. -/
def offerQuery (id expires : String) : String :=
  "?id=" ++ id ++ "&expires=" ++ expires

/-- The `id` minted by `GET /get-qr`. -/
def getQrId (env : Env) : String :=
  let k := (GenerateEd25519Key env).1
  (KeyToDID env "key" k).1

/-- The `expires` value of `GET /get-qr`. -/
def getQrExpires (env : Env) (now : Time) : String :=
  env.timeFormat (now.Add (Minute * 15))

/-- The signed query string of `GET /get-qr`, before the signature is appended. -/
def getQrQuery (env : Env) (now : Time) : String :=
  "?id=" ++ getQrId env ++ "&expires=" ++ getQrExpires env now

/-- The `hmac` value of `GET /get-qr`. -/
def getQrHmac (env : Env) (now : Time) : String :=
  generateHMAC env (getQrQuery env now)

/-- Handler of `GET /get-qr`; `scheme` and `host` are the fields of `location.Get(c)`. -/
def getQr (env : Env) (st : State) (now : Time) (scheme host : String) : Result :=
  let k := (GenerateEd25519Key env).1
  let calls := [Call.GenerateEd25519Key, Call.KeyToDID "key" k]
  let query := getQrQuery env now
  let query := query ++ "&hmac=" ++ getQrHmac env now
  match env.qrcodeEncode (scheme ++ host ++ "/offer" ++ query) with
  | Except.error err =>
    ⟨Outcome.json 400 (GoValue.H (some [("Error generating QR Code", GoValue.string err)])),
      st, calls⟩
  | Except.ok pic =>
    ⟨Outcome.html 200 "get-qr.tmpl" (GoValue.H (some
        [("qr", GoValue.string (env.base64Encode pic)), ("url", GoValue.string query)])),
      st, calls⟩

/-- Handler of `GET /present`. -/
def getPresent (env : Env) (st : State) (scheme host : String) : Result :=
  match env.qrcodeEncode (scheme ++ host ++ "/vp-request") with
  | Except.error err =>
    ⟨Outcome.json 400 (GoValue.H (some [("Error generating QR Code", GoValue.string err)])),
      st, []⟩
  | Except.ok pic =>
    ⟨Outcome.html 200 "present.tmpl" (GoValue.H (some
        [("qr", GoValue.string (env.base64Encode pic)), ("url", GoValue.string "/vp-request")])),
      st, []⟩

/-- Handler of `GET /vp-request`. -/
def getVpRequest (env : Env) (st : State) (host : String) : Result :=
  let r := generateVP env st host
  ⟨Outcome.json 200 r.1, r.2, []⟩

/-- Rendering of a `[]string` by the verb `%v`. -/
def fmtStrings (l : List String) : String :=
  "[" ++ " ".intercalate l ++ "]"

/-- Handler of `POST /vp-request`; `challenge` and `presentation` are the values
of `c.DefaultQuery(name, c.PostForm(name))`, `host` is `location.Get(c).Host`. -/
def postVpRequest (env : Env) (st : State) (host challenge presentation : String) : Result :=
  if challenge = "" then
    ⟨Outcome.json 400 (errorBody "The field 'challenge' is required."), st, []⟩
  else if presentation = "" then
    ⟨Outcome.json 400 (errorBody "The field 'presentation' is required."), st, []⟩
  else
    let verifyOptions := GoValue.H (some
      [("challenge", GoMap.get st.requests challenge),
       ("domain", GoValue.string host),
       ("proofPurpose", GoValue.string "authentication")])
    let verifyStr := (env.jsonMarshal verifyOptions).getD ""
    let verifyResult := (VerifyPresentation env presentation verifyStr).1
    let calls := [Call.VerifyPresentation presentation verifyStr]
    let resultObj := jsonUnmarshalH env verifyResult none
    match (H.get resultObj "errors").assertStrings with
    | none => ⟨Outcome.panic Panic.typeAssertion, st, calls⟩
    | some errors =>
      if errors.length ≠ 0 then
        ⟨Outcome.json 422 (errorBody ("Can't verify presentation: " ++ fmtStrings errors)),
          st, calls⟩
      else
        let vp := jsonUnmarshalH env presentation none
        match (H.get vp "verifiableCredential").assertH with
        | none => ⟨Outcome.panic Panic.typeAssertion, st, calls⟩
        | some none => ⟨Outcome.json 400 (errorBody "Unable to find credential."), st, calls⟩
        | some (some vcMap) =>
          let vc : Option GoMap := some vcMap
          let vcStr := (env.jsonMarshal (GoValue.H vc)).getD ""
          let credResult := (VerifyCredential env vcStr verifyStr).1
          let calls := calls ++ [Call.VerifyCredential vcStr verifyStr]
          let resultObj := jsonUnmarshalH env credResult resultObj
          match (H.get resultObj "errors").assertStrings with
          | none => ⟨Outcome.panic Panic.typeAssertion, st, calls⟩
          | some errors =>
            if errors.length ≠ 0 then
              ⟨Outcome.json 422 (errorBody ("Can't verify credential: " ++ fmtStrings errors)),
                st, calls⟩
            else
              match (H.get vc "credentialSubject").assertH with
              | none => ⟨Outcome.panic Panic.typeAssertion, st, calls⟩
              | some subject =>
                match GoValue.ifaceEq (H.get vp "holder") (H.get subject "id") with
                | none => ⟨Outcome.panic Panic.uncomparable, st, calls⟩
                | some eq =>
                  if !eq then
                    ⟨Outcome.json 422 (errorBody "Credential subject does not match holder"),
                      st, calls⟩
                  else ⟨Outcome.json 200 (GoValue.H (some [])), st, calls⟩

/-- Handler of `GET /offer`; `id`, `hmac` and `expires` are the values of
`c.Query`, `now` is `time.Now()`. -/
def getOffer (env : Env) (st : State) (now : Time) (id hmac expires : String) : Result :=
  if id = "" then
    ⟨Outcome.json 400 (errorBody "The field 'id' is required."), st, []⟩
  else if hmac = "" then
    ⟨Outcome.json 400 (errorBody "The field 'hmac' is required."), st, []⟩
  else if expires = "" then
    ⟨Outcome.json 400 (errorBody "The field 'expires' is required."), st, []⟩
  else
    let query := "?id=" ++ id ++ "&expires=" ++ expires
    let currentTime := now
    let exp := (env.timeParse expires).getD Time.zero
    if currentTime.After exp then
      ⟨Outcome.json 410 (errorBody ("The offer expired at " ++ expires)), st, []⟩
    else if !hmEqual hmac (generateHMAC env query) then
      ⟨Outcome.json 400 (errorBody "Invalid HMAC"), st, []⟩
    else
      let key := goDotEnvVariable env "KEY"
      let issuer := (KeyToDID env "key" key).1
      let issuance := env.timeFormat currentTime
      let expiration := env.timeFormat (currentTime.Add (Minute * 15))
      let st' := (generateCredential st id issuer issuance expiration expires).2
      ⟨Outcome.json 200 (GoMap.get st'.credentials id), st', [Call.KeyToDID "key" key]⟩

/-- Handler of `GET /get-json`. -/
def getJson (env : Env) (st : State) (now : Time) : Result :=
  let k := (GenerateEd25519Key env).1
  let id := (KeyToDID env "key" k).1
  let key := goDotEnvVariable env "KEY"
  let issuer := (KeyToDID env "key" key).1
  let calls := [Call.GenerateEd25519Key, Call.KeyToDID "key" k, Call.KeyToDID "key" key]
  let currentTime := now
  let issuance := env.timeFormat currentTime
  let expiration := env.timeFormat (currentTime.Add (Minute * 15))
  let expires := env.timeFormat (currentTime.Add (Minute * 15))
  let st' := (generateCredential st id issuer issuance expiration expires).2
  match (GoMap.get st'.credentials id).assertH with
  | none => ⟨Outcome.panic Panic.typeAssertion, st', calls⟩
  | some offer =>
    match (H.get offer "credentialPreview").assertH with
    | none => ⟨Outcome.panic Panic.typeAssertion, st', calls⟩
    | some credential =>
      match issueCredential env credential with
      | (Except.error p, cs) => ⟨Outcome.panic p, st', calls ++ cs⟩
      | (Except.ok vc, cs) => ⟨Outcome.json 200 (GoValue.H vc), st', calls ++ cs⟩

/-- Handler of `POST /offer`; `id` and `subjectId` are the values of
`c.DefaultQuery(name, c.PostForm(name))`. The preview map is shared with the
stored offer, so the write to `credentialSubject` is a write to the store. -/
def postOffer (env : Env) (st : State) (id subjectId : String) : Result :=
  if subjectId = "" then
    ⟨Outcome.json 400 (errorBody "The field 'subject_id' is required."), st, []⟩
  else if id = "" then
    ⟨Outcome.json 400 (errorBody "The field 'id' is required."), st, []⟩
  else
    match (GoMap.get st.credentials id).assertH with
    | none => ⟨Outcome.panic Panic.typeAssertion, st, []⟩
    | some offer =>
      match (H.get offer "credentialPreview").assertH with
      | none => ⟨Outcome.panic Panic.typeAssertion, st, []⟩
      | some none => ⟨Outcome.panic Panic.nilMapWrite, st, []⟩
      | some (some preview) =>
        let preview' := GoMap.set preview "credentialSubject"
          (GoValue.H (some [("id", GoValue.string subjectId)]))
        let offer' := GoMap.set (offer.getD []) "credentialPreview" (GoValue.H (some preview'))
        let st' := { st with credentials := GoMap.set st.credentials id (GoValue.H (some offer')) }
        match issueCredential env (some preview') with
        | (Except.error p, cs) => ⟨Outcome.panic p, st', cs⟩
        | (Except.ok vc, cs) => ⟨Outcome.json 200 (GoValue.H vc), st', cs⟩

/-! ## A concrete environment

`sampleEnv` runs the handlers on concrete requests: the reference models above
for `time` and `crypto/hmac`, and test doubles for the toolkit and the JSON
codec. The toolkit double mints one fixed key and DID, cannot sign (its
issue call returns the null pointer) and reports no verification error. -/

/-- JSON string literal (quotes and backslashes escaped). -/
def jsonQuote (s : String) : String :=
  "\"" ++ String.mk (s.data.flatMap (fun c => if c = '"' ∨ c = '\\' then ['\\', c] else [c]))
    ++ "\""

mutual
/-- Encoder double: compact JSON, members in the order of the model map. -/
def encodeValue : GoValue → String
  | GoValue.nil => "null"
  | GoValue.bool b => if b then "true" else "false"
  | GoValue.float64 x => toString x.num
  | GoValue.string s => jsonQuote s
  | GoValue.strings l => "[" ++ ",".intercalate (l.map jsonQuote) ++ "]"
  | GoValue.slice l => "[" ++ ",".intercalate (encodeList l) ++ "]"
  | GoValue.map m => "\x7b" ++ ",".intercalate (encodeFields m) ++ "\x7d"
  | GoValue.H none => "null"
  | GoValue.H (some m) => "\x7b" ++ ",".intercalate (encodeFields m) ++ "\x7d"
/-- Encoded elements of a slice. -/
def encodeList : List GoValue → List String
  | [] => []
  | v :: vs => encodeValue v :: encodeList vs
/-- Encoded members of a map. -/
def encodeFields : List (String × GoValue) → List String
  | [] => []
  | (k, v) :: rest => (jsonQuote k ++ ":" ++ encodeValue v) :: encodeFields rest
end

/-- Verification result of the toolkit double. -/
def sampleVerifyResult : String :=
  "\x7b\"checks\":[\"proof\"],\"warnings\":[],\"errors\":[]\x7d"

/-- A presentation whose holder is not the subject of its credential. -/
def samplePresentation : String :=
  "\x7b\"holder\":\"did:key:z6MkHolder\",\"verifiableCredential\":" ++
  "\x7b\"credentialSubject\":\x7b\"id\":\"did:key:z6MkSubject\"\x7d\x7d\x7d"

/-- Decoder double: the documents of the sample requests; `none` (a syntax
error) for the empty input. -/
def sampleDecode (s : String) : Option Json :=
  if s = sampleVerifyResult then
    some (Json.obj [("checks", Json.arr [Json.str "proof"]), ("warnings", Json.arr []),
      ("errors", Json.arr [])])
  else if s = samplePresentation then
    some (Json.obj [("holder", Json.str "did:key:z6MkHolder"),
      ("verifiableCredential", Json.obj
        [("credentialSubject", Json.obj [("id", Json.str "did:key:z6MkSubject")])])])
  else none

/-- The concrete environment. -/
def sampleEnv : Env where
  getenv := fun key =>
    if key = "HMAC_SECRET" then "secret" else if key = "KEY" then "issuer-jwk" else ""
  hmacSum := fun key msg =>
    ⟨hmacSha256 (stringBytes key) (stringBytes msg), by simp [hmacSha256, sha256, wordBytes]⟩
  timeFormat := formatRFC3339
  timeParse := parseRFC3339
  jsonMarshal := fun v => some (encodeValue v)
  jsonDecode := sampleDecode
  qrcodeEncode := fun _ => Except.ok []
  base64Encode := fun _ => ""
  uuidNewString := "7b2e4f0c-5a1d-4c3e-9f6a-2d8b1c0e4a55"
  didkit_vc_generate_ed25519_key := some "holder-jwk"
  didkit_key_to_did := fun methodName key =>
    if methodName = "key" then some ("did:key:z6Mk-" ++ key) else none
  didkit_vc_issue_credential := fun _ _ _ => none
  didkit_vc_verify_credential := fun _ _ => some sampleVerifyResult
  didkit_vc_verify_presentation := fun _ _ => some sampleVerifyResult
  didkit_error_code := 1
  didkit_error_message := "issuance failed"

/-- The empty stores of a fresh process. -/
def emptyState : State := ⟨[], []⟩

/-! # Theorems -/

/-! ## Lemmas on maps -/

theorem GoMap.get_set_same (m : GoMap) (k : String) (v : GoValue) :
    GoMap.get (GoMap.set m k v) k = v := by
  induction m with
  | nil => simp [GoMap.set, GoMap.get]
  | cons kv rest ih =>
    obtain ⟨k', v'⟩ := kv
    by_cases h : k' = k
    · simp [GoMap.set, GoMap.get, h]
    · simp [GoMap.set, GoMap.get, h, ih]

theorem GoMap.get_set_ne (m : GoMap) (k k' : String) (v : GoValue) (hne : k' ≠ k) :
    GoMap.get (GoMap.set m k v) k' = GoMap.get m k' := by
  have hkk : ¬ k = k' := fun h => hne h.symm
  induction m with
  | nil => simp [GoMap.set, GoMap.get, hkk]
  | cons kv rest ih =>
    obtain ⟨k0, v0⟩ := kv
    by_cases h : k0 = k
    · have h0 : ¬ k0 = k' := fun h1 => hkk (h.symm.trans h1)
      simp [GoMap.set, GoMap.get, h, hkk]
    · by_cases h2 : k0 = k'
      · rw [GoMap.set, if_neg h, GoMap.get, if_pos h2, GoMap.get, if_pos h2]
      · rw [GoMap.set, if_neg h, GoMap.get, if_neg h2, GoMap.get, if_neg h2, ih]

/-! ## The three exits of `GET /offer` -/

theorem getOffer_of_expired (env : Env) (st : State) (now : Time) (id hmac expires : String)
    (hid : id ≠ "") (hh : hmac ≠ "") (he : expires ≠ "")
    (hexp : now.After ((env.timeParse expires).getD Time.zero) = true) :
    getOffer env st now id hmac expires =
      ⟨Outcome.json 410 (errorBody ("The offer expired at " ++ expires)), st, []⟩ := by
  simp [getOffer, hid, hh, he, hexp]

theorem getOffer_of_bad_hmac (env : Env) (st : State) (now : Time) (id hmac expires : String)
    (hid : id ≠ "") (hh : hmac ≠ "") (he : expires ≠ "")
    (hexp : now.After ((env.timeParse expires).getD Time.zero) = false)
    (hne : hmac ≠ generateHMAC env ("?id=" ++ id ++ "&expires=" ++ expires)) :
    getOffer env st now id hmac expires =
      ⟨Outcome.json 400 (errorBody "Invalid HMAC"), st, []⟩ := by
  simp [getOffer, hid, hh, he, hexp, hmEqual, hne]

theorem getOffer_of_valid (env : Env) (st : State) (now : Time) (id hmac expires : String)
    (hid : id ≠ "") (hh : hmac ≠ "") (he : expires ≠ "")
    (hexp : now.After ((env.timeParse expires).getD Time.zero) = false)
    (heq : hmac = generateHMAC env ("?id=" ++ id ++ "&expires=" ++ expires)) :
    getOffer env st now id hmac expires =
      ⟨Outcome.json 200 (GoValue.H (some (credentialOffer id
          (KeyToDID env "key" (goDotEnvVariable env "KEY")).1 (env.timeFormat now)
          (env.timeFormat (now.Add (Minute * 15))) expires))),
        { st with credentials := GoMap.set st.credentials id (GoValue.H (some (credentialOffer id
          (KeyToDID env "key" (goDotEnvVariable env "KEY")).1 (env.timeFormat now)
          (env.timeFormat (now.Add (Minute * 15))) expires))) },
        [Call.KeyToDID "key" (goDotEnvVariable env "KEY")]⟩ := by
  subst heq
  simp [getOffer, hid, he, hexp, hmEqual, generateCredential, GoMap.get_set_same] at hh ⊢
  intro h
  exact absurd h hh
theorem hexEncodeToString_length (src : List UInt8) :
    (hexEncodeToString src).length = 2 * src.length := by
  unfold hexEncodeToString
  show (List.flatMap src _).length = _
  induction src with
  | nil => rfl
  | cons b rest ih => simp [List.flatMap_cons, ih]; omega

theorem generateHMAC_length (env : Env) (query : String) :
    (generateHMAC env query).length = 64 := by
  unfold generateHMAC
  simp only [hexEncodeToString_length, (env.hmacSum _ _).property]

theorem generateHMAC_ne_empty (env : Env) (query : String) : generateHMAC env query ≠ "" := by
  intro h
  have := generateHMAC_length env query
  rw [h] at this
  simp at this

theorem getOffer_status_cases (env : Env) (st : State) (now : Time) (id hmac expires : String) :
    (getOffer env st now id hmac expires).outcome.status = 200 →
    id ≠ "" ∧ hmac ≠ "" ∧ expires ≠ "" ∧
      now.After ((env.timeParse expires).getD Time.zero) = false ∧
      hmac = generateHMAC env ("?id=" ++ id ++ "&expires=" ++ expires) := by
  intro h
  by_cases hid : id = ""
  · simp [getOffer, hid, Outcome.status] at h
  by_cases hh : hmac = ""
  · simp [getOffer, hid, hh, Outcome.status] at h
  by_cases he : expires = ""
  · simp [getOffer, hid, hh, he, Outcome.status] at h
  cases hexp : now.After ((env.timeParse expires).getD Time.zero)
  · by_cases heq : hmac = generateHMAC env ("?id=" ++ id ++ "&expires=" ++ expires)
    · exact ⟨hid, hh, he, rfl, heq⟩
    · rw [getOffer_of_bad_hmac env st now id hmac expires hid hh he hexp heq] at h
      simp [Outcome.status] at h
  · rw [getOffer_of_expired env st now id hmac expires hid hh he hexp] at h
    simp [Outcome.status] at h

/-- C1: the token made by `GET /get-qr` (the minted id, `expires` = now + 15
minutes in RFC 3339, `hmac` = hex HMAC-SHA256 of `?id=<id>&expires=<expires>`)
is accepted by `GET /offer` at every time `now'` not after the instant `exp`
that `expires` denotes: the answer is 200 with the CredentialOffer, which is
the entry stored under the id. The link shown by `GET /get-qr` carries exactly
these three values. -/
theorem getQr_token_redeemable (env : Env) (st : State) (now now' exp : Time)
    (hid : getQrId env ≠ "") (hne : getQrExpires env now ≠ "")
    (hparse : env.timeParse (getQrExpires env now) = some exp)
    (hle : now'.ns ≤ exp.ns) :
    (getOffer env st now' (getQrId env) (getQrHmac env now) (getQrExpires env now)).outcome
      = Outcome.json 200 (GoMap.get
          (getOffer env st now' (getQrId env) (getQrHmac env now)
            (getQrExpires env now)).state.credentials (getQrId env)) ∧
    GoMap.get (getOffer env st now' (getQrId env) (getQrHmac env now)
        (getQrExpires env now)).state.credentials (getQrId env)
      = GoValue.H (some (credentialOffer (getQrId env)
          (KeyToDID env "key" (goDotEnvVariable env "KEY")).1 (env.timeFormat now')
          (env.timeFormat (now'.Add (Minute * 15))) (getQrExpires env now))) ∧
    (∀ scheme host pic,
      env.qrcodeEncode (scheme ++ host ++ "/offer" ++ ("?id=" ++ getQrId env ++ "&expires=" ++
        getQrExpires env now ++ "&hmac=" ++ getQrHmac env now)) = Except.ok pic →
      (getQr env st now scheme host).outcome = Outcome.html 200 "get-qr.tmpl" (GoValue.H (some
        [("qr", GoValue.string (env.base64Encode pic)),
         ("url", GoValue.string ("?id=" ++ getQrId env ++ "&expires=" ++
            getQrExpires env now ++ "&hmac=" ++ getQrHmac env now))]))) := by
  have hexp : now'.After ((env.timeParse (getQrExpires env now)).getD Time.zero) = false := by
    simp [hparse, Time.After, hle]
  have hh : getQrHmac env now ≠ "" := generateHMAC_ne_empty env _
  rw [getOffer_of_valid env st now' _ _ _ hid hh hne hexp rfl]
  refine ⟨by simp [GoMap.get_set_same], by simp [GoMap.get_set_same], ?_⟩
  intro scheme host pic hpic
  simp only [getQr, getQrQuery, hpic]

/-- Witness of C1: created at 2024-01-01T00:00:00Z, redeemed at 2024-01-01T00:15:00Z. -/
theorem getQr_token_redeemable_witness :
    getQrExpires sampleEnv (Date 2024 1 1 0 0 0 0) = "2024-01-01T00:15:00Z" ∧
    (getOffer sampleEnv emptyState (Date 2024 1 1 0 15 0 0) (getQrId sampleEnv)
        (getQrHmac sampleEnv (Date 2024 1 1 0 0 0 0))
        (getQrExpires sampleEnv (Date 2024 1 1 0 0 0 0))).outcome
      = Outcome.json 200 (GoMap.get
          (getOffer sampleEnv emptyState (Date 2024 1 1 0 15 0 0) (getQrId sampleEnv)
            (getQrHmac sampleEnv (Date 2024 1 1 0 0 0 0))
            (getQrExpires sampleEnv (Date 2024 1 1 0 0 0 0))).state.credentials
          (getQrId sampleEnv)) :=
  ⟨by decide,
   (getQr_token_redeemable sampleEnv emptyState (Date 2024 1 1 0 0 0 0) (Date 2024 1 1 0 15 0 0)
    (Date 2024 1 1 0 15 0 0) (by decide) (by decide) (by decide) (by decide)).1⟩
/-- C2: for a request with non-empty `id`, `hmac`, `expires` whose `expires`
parses to the instant `exp`, `GET /offer` answers 410 (expired) exactly when
the current time is strictly after `exp`; at `now = exp` the answer is not
410, at `now = exp + 1s` it is the 410 error. -/
theorem getOffer_expired_iff_after (env : Env) (st : State) (now exp : Time)
    (id hmac expires : String)
    (hid : id ≠ "") (hh : hmac ≠ "") (he : expires ≠ "")
    (hparse : env.timeParse expires = some exp) :
    ((getOffer env st now id hmac expires).outcome.status = 410 ↔ exp.ns < now.ns) ∧
    (exp.ns < now.ns → (getOffer env st now id hmac expires).outcome
      = Outcome.json 410 (errorBody ("The offer expired at " ++ expires))) ∧
    (getOffer env st exp id hmac expires).outcome.status ≠ 410 ∧
    (getOffer env st (exp.Add Second) id hmac expires).outcome
      = Outcome.json 410 (errorBody ("The offer expired at " ++ expires)) := by
  have key : ∀ t : Time, ((getOffer env st t id hmac expires).outcome.status = 410 ↔
      exp.ns < t.ns) ∧ (exp.ns < t.ns → (getOffer env st t id hmac expires).outcome
        = Outcome.json 410 (errorBody ("The offer expired at " ++ expires))) := by
    intro t
    by_cases hlt : exp.ns < t.ns
    · have hexp : t.After ((env.timeParse expires).getD Time.zero) = true := by
        simp [hparse, Time.After, hlt]
      rw [getOffer_of_expired env st t id hmac expires hid hh he hexp]
      simp [Outcome.status, hlt]
    · have hexp : t.After ((env.timeParse expires).getD Time.zero) = false := by
        simp [hparse, Time.After, hlt]
      refine ⟨?_, fun h => absurd h hlt⟩
      by_cases heq : hmac = generateHMAC env ("?id=" ++ id ++ "&expires=" ++ expires)
      · rw [getOffer_of_valid env st t id hmac expires hid hh he hexp heq]
        simp [Outcome.status, hlt]
      · rw [getOffer_of_bad_hmac env st t id hmac expires hid hh he hexp heq]
        simp [Outcome.status, hlt]
  refine ⟨(key now).1, (key now).2, ?_, ?_⟩
  · intro h
    exact absurd ((key exp).1.mp h) (lt_irrefl _)
  · apply (key (exp.Add Second)).2
    simp [Time.Add, Second]

/-- Witness of C2: `expires` = 2024-01-01T00:15:00Z, asked one nanosecond later. -/
theorem getOffer_expired_iff_after_witness :
    (getOffer sampleEnv emptyState (Date 2024 1 1 0 15 0 1) "did:key:z6Mk" "00"
        "2024-01-01T00:15:00Z").outcome.status = 410 ↔
      (Date 2024 1 1 0 15 0 0).ns < (Date 2024 1 1 0 15 0 1).ns :=
  (getOffer_expired_iff_after sampleEnv emptyState (Date 2024 1 1 0 15 0 1)
    (Date 2024 1 1 0 15 0 0) "did:key:z6Mk" "00" "2024-01-01T00:15:00Z"
    (by decide) (by decide) (by decide) (by decide)).1

/-- C3: when the correctly signed token `(id, expires, signature)` is accepted
at `now`, replacing the character at any position of `signature` by a different
one makes `GET /offer` answer 400 "Invalid HMAC", and the stores are unchanged. -/
theorem getOffer_mutated_signature (env : Env) (st : State) (now : Time) (id expires : String)
    (i : Nat) (c : Char)
    (hacc : (getOffer env st now id (generateHMAC env ("?id=" ++ id ++ "&expires=" ++ expires))
      expires).outcome.status = 200)
    (hi : i < (generateHMAC env ("?id=" ++ id ++ "&expires=" ++ expires)).data.length)
    (hc : (generateHMAC env ("?id=" ++ id ++ "&expires=" ++ expires)).data.get? i ≠ some c) :
    getOffer env st now id
        (String.mk ((generateHMAC env ("?id=" ++ id ++ "&expires=" ++ expires)).data.set i c))
        expires
      = ⟨Outcome.json 400 (errorBody "Invalid HMAC"), st, []⟩ := by
  obtain ⟨hid, _, he, hexp, _⟩ := getOffer_status_cases env st now id _ expires hacc
  have hne : String.mk ((generateHMAC env ("?id=" ++ id ++ "&expires=" ++ expires)).data.set i c)
      ≠ generateHMAC env ("?id=" ++ id ++ "&expires=" ++ expires) := by
    intro h
    have h2 := congrArg (fun s : String => s.data.get? i) h
    simp only [List.get?_eq_getElem?] at h2 hc
    rw [List.getElem?_set_self hi] at h2
    exact hc h2.symm
  have hh : String.mk ((generateHMAC env ("?id=" ++ id ++ "&expires=" ++ expires)).data.set i c)
      ≠ "" := by
    intro h
    have : ((generateHMAC env ("?id=" ++ id ++ "&expires=" ++ expires)).data.set i c).length
        = 0 := by
      rw [show ((generateHMAC env ("?id=" ++ id ++ "&expires=" ++ expires)).data.set i c)
        = (String.mk ((generateHMAC env ("?id=" ++ id ++ "&expires=" ++ expires)).data.set i c)).data
        from rfl, h]
      rfl
    rw [List.length_set] at this
    omega
  exact getOffer_of_bad_hmac env st now id _ expires hid hh he hexp hne

set_option maxRecDepth 100000 in
/-- Witness of C3: the first character of the signature replaced by `'g'`. -/
theorem getOffer_mutated_signature_witness :
    (getOffer sampleEnv emptyState (Date 2024 1 1 0 15 0 0) "did:key:z6Mk"
        (String.mk ((generateHMAC sampleEnv
          ("?id=" ++ "did:key:z6Mk" ++ "&expires=" ++ "2024-01-01T00:15:00Z")).data.set 0 'g'))
        "2024-01-01T00:15:00Z").outcome.status = 400 := by
  rw [getOffer_mutated_signature sampleEnv emptyState (Date 2024 1 1 0 15 0 0) "did:key:z6Mk"
    "2024-01-01T00:15:00Z" 0 'g' (by decide) (by decide) (by decide)]
  rfl
/-- C4 (as the code has it): a request with non-empty `id`, `hmac`, `expires`
whose `expires` does not parse is not told apart from an expired one: the parse
error is dropped, the zero time stands in for `expires`, and at every `now`
after 0001-01-01T00:00:00Z the answer is the 410 error; the stores are unchanged. -/
theorem getOffer_unparsable_expires (env : Env) (st : State) (now : Time)
    (id hmac expires : String)
    (hid : id ≠ "") (hh : hmac ≠ "") (he : expires ≠ "")
    (hparse : env.timeParse expires = none) (hnow : 0 < now.ns) :
    getOffer env st now id hmac expires
      = ⟨Outcome.json 410 (errorBody ("The offer expired at " ++ expires)), st, []⟩ := by
  apply getOffer_of_expired env st now id hmac expires hid hh he
  simp [hparse, Time.After, Time.zero, hnow]

/-- Witness of C4 as amended. -/
theorem getOffer_unparsable_expires_witness :
    (getOffer sampleEnv emptyState (Date 2024 1 1 0 0 0 0) "did:key:z6Mk" "00"
      "2024-13-01T00:00:00Z").outcome
      = Outcome.json 410 (errorBody ("The offer expired at " ++ "2024-13-01T00:00:00Z")) :=
  congrArg Result.outcome
    (getOffer_unparsable_expires sampleEnv emptyState (Date 2024 1 1 0 0 0 0) "did:key:z6Mk" "00"
      "2024-13-01T00:00:00Z" (by decide) (by decide) (by decide) (by decide) (by decide))

/-- Counterexample to C4 as stated: `expires` = "tomorrow" is not an RFC 3339
timestamp, and the answer is the very 410 error of an expired offer. -/
theorem getOffer_unparsable_is_expired :
    sampleEnv.timeParse "tomorrow" = none ∧
    (getOffer sampleEnv emptyState (Date 2024 1 1 0 0 0 0) "did:key:z6Mk" "00"
      "tomorrow").outcome
      = Outcome.json 410 (errorBody "The offer expired at tomorrow") ∧
    (getOffer sampleEnv emptyState (Date 2024 1 1 0 0 0 0) "did:key:z6Mk" "00"
      "tomorrow").outcome.status = 410 :=
  ⟨by decide, by rfl, by decide⟩

/-- C9: `GET /offer` leaves every entry of the Offer Store under a key other
than `id` as it was, never touches the Exchange Store, and when it answers
with anything but 200 it leaves both stores exactly as they were. -/
theorem getOffer_frame (env : Env) (st : State) (now : Time) (id hmac expires : String) :
    (∀ k, k ≠ id →
      GoMap.get (getOffer env st now id hmac expires).state.credentials k
        = GoMap.get st.credentials k) ∧
    (getOffer env st now id hmac expires).state.requests = st.requests ∧
    ((getOffer env st now id hmac expires).outcome.status ≠ 200 →
      (getOffer env st now id hmac expires).state = st) := by
  by_cases hid : id = ""
  · simp [getOffer, hid]
  by_cases hh : hmac = ""
  · simp [getOffer, hid, hh]
  by_cases he : expires = ""
  · simp [getOffer, hid, hh, he]
  cases hexp : now.After ((env.timeParse expires).getD Time.zero)
  · by_cases heq : hmac = generateHMAC env ("?id=" ++ id ++ "&expires=" ++ expires)
    · rw [getOffer_of_valid env st now id hmac expires hid hh he hexp heq]
      refine ⟨fun k hk => GoMap.get_set_ne _ _ _ _ hk, rfl, ?_⟩
      simp [Outcome.status]
    · rw [getOffer_of_bad_hmac env st now id hmac expires hid hh he hexp heq]
      simp
  · rw [getOffer_of_expired env st now id hmac expires hid hh he hexp]
    simp

/-! ## `strings.Split` and the last component -/

theorem stringsSplit_ne_nil (s : List Char) (sep : Char) : stringsSplit s sep ≠ [] := by
  cases s with
  | nil => simp [stringsSplit]
  | cons c cs =>
    unfold stringsSplit
    split_ifs
    · simp
    · split <;> simp

theorem stringsSplit_of_not_mem (s : List Char) (sep : Char) (h : sep ∉ s) :
    stringsSplit s sep = [s] := by
  induction s with
  | nil => rfl
  | cons c cs ih =>
    have hc : ¬ c = sep := fun e => h (by simp [e])
    have hcs : sep ∉ cs := fun e => h (List.mem_cons_of_mem _ e)
    unfold stringsSplit
    rw [if_neg hc, ih hcs]

theorem stringsSplit_append (p t : List Char) (sep : Char) :
    stringsSplit (p ++ sep :: t) sep = stringsSplit p sep ++ stringsSplit t sep := by
  induction p with
  | nil => simp [stringsSplit]
  | cons c cs ih =>
    by_cases hc : c = sep
    · simp only [List.cons_append]
      rw [stringsSplit, if_pos hc, ih]
      conv_rhs => rw [stringsSplit, if_pos hc]
      rfl
    · simp only [List.cons_append]
      rw [stringsSplit, if_neg hc, ih]
      conv_rhs => rw [stringsSplit, if_neg hc]
      cases hsp : stringsSplit cs sep with
      | nil => exact absurd hsp (stringsSplit_ne_nil cs sep)
      | cons q qs => rfl

theorem sliceIndex_last {α : Type} (l : List α) (hl : l ≠ []) :
    sliceIndex l ((l.length : Int) - 1) = l.getLast? := by
  have hpos : 0 < l.length := List.length_pos.mpr hl
  have h0 : ¬ ((l.length : Int) - 1 < 0) := by omega
  have h1 : ((l.length : Int) - 1).toNat = l.length - 1 := by omega
  unfold sliceIndex
  rw [if_neg h0, h1, List.getLast?_eq_getElem?, List.get?_eq_getElem?]

theorem stringsSplit_last (s : List Char) (sep : Char) :
    ∃ t, sliceIndex (stringsSplit s sep) (((stringsSplit s sep).length : Int) - 1) = some t ∧
      sep ∉ t ∧ ((sep ∉ s ∧ t = s) ∨ ∃ p, s = p ++ sep :: t) := by
  rw [sliceIndex_last _ (stringsSplit_ne_nil s sep)]
  by_cases h : sep ∈ s
  · have hr : sep ∈ s.reverse := List.mem_reverse.mpr h
    obtain ⟨as, bs, hab, hnot⟩ := List.eq_append_cons_of_mem hr
    have hs : s = bs.reverse ++ sep :: as.reverse := by
      have := congrArg List.reverse hab
      simpa using this
    have hnot' : sep ∉ as.reverse := fun e => hnot (List.mem_reverse.mp e)
    refine ⟨as.reverse, ?_, hnot', Or.inr ⟨bs.reverse, hs⟩⟩
    rw [hs, stringsSplit_append, stringsSplit_of_not_mem _ _ hnot']
    simp
  · exact ⟨s, by rw [stringsSplit_of_not_mem _ _ h]; rfl, h, Or.inl ⟨h, rfl⟩⟩

/-- C10: for a credential whose `issuer` is the string `issuer`, the index
`vm[len(vm)-1]` into `strings.Split(issuer, ":")` is in range and is the part
`t` of `issuer` after its last `':'` (all of `issuer` when there is none), and
`issueCredential` calls the toolkit with the options `proofPurpose` =
"assertionMethod" and `verificationMethod` = `issuer ++ "#" ++ t`; for the
issuer "did:key:z6Mk" this is "did:key:z6Mk#z6Mk". -/
theorem issueCredential_verificationMethod (env : Env) (credential : Option GoMap)
    (issuer : String) (hiss : H.get credential "issuer" = GoValue.string issuer) :
    (∃ t : List Char,
      sliceIndex (stringsSplit issuer.data ':')
        (((stringsSplit issuer.data ':').length : Int) - 1) = some t ∧
      ':' ∉ t ∧ ((':' ∉ issuer.data ∧ t = issuer.data) ∨ ∃ p, issuer.data = p ++ ':' :: t) ∧
      (issueCredential env credential).2 =
        [Call.IssueCredential ((env.jsonMarshal (GoValue.H credential)).getD "")
          ((env.jsonMarshal (GoValue.H (some
            [("proofPurpose", GoValue.string "assertionMethod"),
             ("verificationMethod", GoValue.string (issuer ++ "#" ++ String.mk t))]))).getD "")
          (goDotEnvVariable env "KEY")] ∧
      ∃ vc, (issueCredential env credential).1 = Except.ok vc) ∧
    (issueCredential env (some [("issuer", GoValue.string "did:key:z6Mk")])).2 =
      [Call.IssueCredential
        ((env.jsonMarshal (GoValue.H (some [("issuer", GoValue.string "did:key:z6Mk")]))).getD "")
        ((env.jsonMarshal (GoValue.H (some
          [("proofPurpose", GoValue.string "assertionMethod"),
           ("verificationMethod", GoValue.string "did:key:z6Mk#z6Mk")]))).getD "")
        (goDotEnvVariable env "KEY")] := by
  refine ⟨?_, rfl⟩
  obtain ⟨t, ht, hnot, hpart⟩ := stringsSplit_last issuer.data ':'
  refine ⟨t, ht, hnot, hpart, ?_, ?_⟩
  · simp only [issueCredential, hiss, GoValue.assertString, ht]
  · simp only [issueCredential, hiss, GoValue.assertString, ht]
    exact ⟨_, rfl⟩

/-- Witness of C10: the issuer of the sample environment. -/
theorem issueCredential_verificationMethod_witness :
    (issueCredential sampleEnv (some [("issuer", GoValue.string "did:key:z6Mk")])).2 =
      [Call.IssueCredential
        ((sampleEnv.jsonMarshal
          (GoValue.H (some [("issuer", GoValue.string "did:key:z6Mk")]))).getD "")
        ((sampleEnv.jsonMarshal (GoValue.H (some
          [("proofPurpose", GoValue.string "assertionMethod"),
           ("verificationMethod", GoValue.string "did:key:z6Mk#z6Mk")]))).getD "")
        (goDotEnvVariable sampleEnv "KEY")] :=
  (issueCredential_verificationMethod sampleEnv (some [("issuer", GoValue.string "did:key:z6Mk")])
    "did:key:z6Mk" (by rfl)).2
/-! ## Decoded JSON never holds a `[]string` -/

theorem GoMap.get_of_absent (m : GoMap) (k : String) (h : ∀ v, (k, v) ∉ m) :
    GoMap.get m k = GoValue.nil := by
  induction m with
  | nil => rfl
  | cons kv rest ih =>
    obtain ⟨k0, v0⟩ := kv
    have hk : ¬ k0 = k := fun e => h v0 (by simp [e])
    rw [GoMap.get, if_neg hk]
    exact ih (fun v hv => h v (List.mem_cons_of_mem _ hv))

theorem Json.toGo_assertStrings (j : Json) : (Json.toGo j).assertStrings = none := by
  cases j <;> simp [Json.toGo, GoValue.assertStrings]

theorem decoded_fields_assertStrings (fields : List (String × Json)) (m : GoMap)
    (hm : ∀ k, (GoMap.get m k).assertStrings = none) (k : String) :
    (GoMap.get ((Json.toGoFields fields).foldl (fun m kv => GoMap.set m kv.1 kv.2) m)
      k).assertStrings = none := by
  induction fields generalizing m with
  | nil => simpa [Json.toGoFields] using hm k
  | cons kj rest ih =>
    obtain ⟨k0, j0⟩ := kj
    simp only [Json.toGoFields, List.foldl_cons]
    apply ih
    intro k'
    by_cases hk : k' = k0
    · rw [hk, GoMap.get_set_same]
      exact Json.toGo_assertStrings j0
    · rw [GoMap.get_set_ne _ _ _ _ hk]
      exact hm k'

theorem jsonUnmarshalH_assertStrings (env : Env) (data : String) (target : Option GoMap)
    (ht : ∀ k, (H.get target k).assertStrings = none) (k : String) :
    (H.get (jsonUnmarshalH env data target) k).assertStrings = none := by
  unfold jsonUnmarshalH
  split
  · apply decoded_fields_assertStrings
    intro k'
    cases target with
    | none => rfl
    | some m => exact ht k'
  · rfl
  · exact ht k

theorem postVpRequest_eq (env : Env) (st : State) (host challenge presentation : String)
    (hc : challenge ≠ "") (hp : presentation ≠ "") :
    postVpRequest env st host challenge presentation =
      ⟨Outcome.panic Panic.typeAssertion, st,
        [Call.VerifyPresentation presentation ((env.jsonMarshal (GoValue.H (some
          [("challenge", GoMap.get st.requests challenge),
           ("domain", GoValue.string host),
           ("proofPurpose", GoValue.string "authentication")]))).getD "")]⟩ := by
  have h := jsonUnmarshalH_assertStrings env
    (VerifyPresentation env presentation ((env.jsonMarshal (GoValue.H (some
          [("challenge", GoMap.get st.requests challenge),
           ("domain", GoValue.string host),
           ("proofPurpose", GoValue.string "authentication")]))).getD "")).1 none
    (fun _ => rfl) "errors"
  simp only [postVpRequest, if_neg hc, if_neg hp, h]

/-- C5 (the code at the failing input): `POST /offer` with non-empty `id` and
`subject_id` whose `id` has no entry in the Offer Store does not answer 400:
the assertion `credentials[id].(gin.H)` on the nil interface panics. -/
theorem postOffer_unknown_offer_panics (env : Env) (st : State) (id subjectId : String)
    (hs : subjectId ≠ "") (hid : id ≠ "") (habs : ∀ v, (id, v) ∉ st.credentials) :
    postOffer env st id subjectId = ⟨Outcome.panic Panic.typeAssertion, st, []⟩ := by
  simp only [postOffer, if_neg hs, if_neg hid, GoMap.get_of_absent _ _ habs, GoValue.assertH]

/-- Witness of C5: a never-created offer on a fresh process. -/
theorem postOffer_unknown_offer_panics_witness :
    (postOffer sampleEnv emptyState "did:key:z6MkUnknown" "did:key:z6MkSubject").outcome
      = Outcome.panic Panic.typeAssertion :=
  congrArg Result.outcome
    (postOffer_unknown_offer_panics sampleEnv emptyState "did:key:z6MkUnknown"
      "did:key:z6MkSubject" (by decide) (by decide) (by simp [emptyState]))

/-- C6 (the code at the failing input): `POST /vp-request` with non-empty
`challenge` and `presentation` never reaches the holder/subject comparison:
`resultObj["errors"]` decoded by `json.Unmarshal` is never a `[]string`, so the
assertion `.([]string)` panics right after the first toolkit call, whatever the
toolkit answers. -/
theorem postVpRequest_panics (env : Env) (st : State) (host challenge presentation : String)
    (hc : challenge ≠ "") (hp : presentation ≠ "") :
    (postVpRequest env st host challenge presentation).outcome
      = Outcome.panic Panic.typeAssertion ∧
    (postVpRequest env st host challenge presentation).outcome.status = 500 := by
  rw [postVpRequest_eq env st host challenge presentation hc hp]
  exact ⟨rfl, rfl⟩

/-- Witness of C6: the toolkit reports no error for a presentation whose holder
differs from the subject of its credential. -/
theorem postVpRequest_panics_witness :
    sampleEnv.didkit_vc_verify_presentation samplePresentation "" = some sampleVerifyResult ∧
    sampleEnv.didkit_vc_verify_credential "" "" = some sampleVerifyResult ∧
    (jsonUnmarshalH sampleEnv sampleVerifyResult none).map
      (fun m => GoMap.get m "errors" matches GoValue.slice []) = some true ∧
    (postVpRequest sampleEnv emptyState "example.org" "7b2e4f0c" samplePresentation).outcome
      = Outcome.panic Panic.typeAssertion :=
  ⟨rfl, rfl, by rfl,
   (postVpRequest_panics sampleEnv emptyState "example.org" "7b2e4f0c" samplePresentation
    (by decide) (by decide)).1⟩

/-- C8: for non-empty `challenge` and `presentation`, the first toolkit call of
`POST /vp-request` is `VerifyPresentation` with the presentation and the
encoding of `{challenge: E, domain: host, proofPurpose: "authentication"}`,
where `E` is the entry of the Exchange Store under the challenge: the nil
value when nothing is stored there, and the whole request object (not its
challenge string) for a request stored by `generateVP`. -/
theorem postVpRequest_verify_options (env : Env) (st : State)
    (host challenge presentation : String)
    (hc : challenge ≠ "") (hp : presentation ≠ "") :
    (postVpRequest env st host challenge presentation).calls.head? =
      some (Call.VerifyPresentation presentation ((env.jsonMarshal (GoValue.H (some
          [("challenge", GoMap.get st.requests challenge),
           ("domain", GoValue.string host),
           ("proofPurpose", GoValue.string "authentication")]))).getD "")) ∧
    ((∀ v, (challenge, v) ∉ st.requests) → GoMap.get st.requests challenge = GoValue.nil) ∧
    (∀ host0 : String, ∃ m : GoMap,
      GoMap.get (generateVP env st host0).2.requests env.uuidNewString = GoValue.H (some m) ∧
      (generateVP env st host0).1 = GoValue.H (some m) ∧
      GoMap.get m "type" = GoValue.string "VerifiablePresentationRequest" ∧
      GoMap.get m "challenge" = GoValue.string env.uuidNewString ∧
      GoMap.get m "domain" = GoValue.string host0) := by
  refine ⟨?_, GoMap.get_of_absent _ _, ?_⟩
  · rw [postVpRequest_eq env st host challenge presentation hc hp]
    rfl
  · intro host0
    refine ⟨_, ?_, rfl, ?_, ?_, ?_⟩
    · simp only [generateVP, GoMap.get_set_same]
    · rfl
    · rfl
    · rfl

/-- Witness of C8: an unknown challenge on a fresh process. -/
theorem postVpRequest_verify_options_witness :
    (postVpRequest sampleEnv emptyState "example.org" "7b2e4f0c" samplePresentation).calls.head? =
      some (Call.VerifyPresentation samplePresentation
        "\x7b\"challenge\":null,\"domain\":\"example.org\",\"proofPurpose\":\"authentication\"\x7d") :=
  (postVpRequest_verify_options sampleEnv emptyState "example.org" "7b2e4f0c" samplePresentation
    (by decide) (by decide)).1
theorem issueCredential_call (env : Env) (credential : Option GoMap) (issuer : String)
    (hiss : H.get credential "issuer" = GoValue.string issuer) :
    ∃ c o k, issueCredential env credential =
      (Except.ok (jsonUnmarshalH env (IssueCredential env c o k).1 none),
        [Call.IssueCredential c o k]) := by
  obtain ⟨t, ht, _, _⟩ := stringsSplit_last issuer.data ':'
  refine ⟨(env.jsonMarshal (GoValue.H credential)).getD "",
    (env.jsonMarshal (GoValue.H (some
      [("proofPurpose", GoValue.string "assertionMethod"),
       ("verificationMethod", GoValue.string (issuer ++ "#" ++ String.mk t))]))).getD "",
    goDotEnvVariable env "KEY", ?_⟩
  simp only [issueCredential, hiss, GoValue.assertString, ht]

theorem jsonUnmarshalH_of_failed_call (env : Env) (c o k : String)
    (hfail : env.didkit_vc_issue_credential c o k = none)
    (hdec : env.jsonDecode "" = none) :
    jsonUnmarshalH env (IssueCredential env c o k).1 none = none := by
  simp only [IssueCredential, hfail, jsonUnmarshalH, hdec]

theorem getJson_issue_call (env : Env) (st : State) (now : Time) :
    ∃ c o k, Call.IssueCredential c o k ∈ (getJson env st now).calls ∧
      (getJson env st now).outcome =
        Outcome.json 200 (GoValue.H (jsonUnmarshalH env (IssueCredential env c o k).1 none)) := by
  obtain ⟨c, o, k, heq⟩ := issueCredential_call env
    (some [("@context", GoValue.strings
        ["https://www.w3.org/2018/credentials/v1", "https://schema.org/"]),
     ("id", GoValue.string (KeyToDID env "key" (GenerateEd25519Key env).1).1),
     ("type", GoValue.string "VerifiableCredential"),
     ("issuer", GoValue.string (KeyToDID env "key" (goDotEnvVariable env "KEY")).1),
     ("issuanceDate", GoValue.string (env.timeFormat now)),
     ("expirationDate", GoValue.string (env.timeFormat (now.Add (Minute * 15)))),
     ("credentialSubject", GoValue.H (some []))])
    (KeyToDID env "key" (goDotEnvVariable env "KEY")).1 rfl
  refine ⟨c, o, k, ?_⟩
  simp only [getJson, generateCredential, GoMap.get_set_same, GoValue.assertH, credentialOffer,
    H.get, GoMap.get]
  simp only [show ("type" = "credentialPreview") = False from by decide, if_false, if_true]
  rw [heq]
  exact ⟨by simp, rfl⟩

theorem postOffer_issue_call (env : Env) (st : State) (id subjectId : String) (offer preview : GoMap)
    (issuer : String) (hid : id ≠ "") (hs : subjectId ≠ "")
    (hoff : GoMap.get st.credentials id = GoValue.H (some offer))
    (hprev : GoMap.get offer "credentialPreview" = GoValue.H (some preview))
    (hiss : GoMap.get preview "issuer" = GoValue.string issuer) :
    ∃ c o k, Call.IssueCredential c o k ∈ (postOffer env st id subjectId).calls ∧
      (postOffer env st id subjectId).outcome =
        Outcome.json 200 (GoValue.H (jsonUnmarshalH env (IssueCredential env c o k).1 none)) := by
  have hne : ("issuer" : String) ≠ "credentialSubject" := by decide
  obtain ⟨c, o, k, heq⟩ := issueCredential_call env
    (some (GoMap.set preview "credentialSubject"
      (GoValue.H (some [("id", GoValue.string subjectId)])))) issuer
    (by simp only [H.get]; rw [GoMap.get_set_ne _ _ _ _ hne]; exact hiss)
  refine ⟨c, o, k, ?_⟩
  simp only [postOffer, if_neg hs, if_neg hid, hoff, GoValue.assertH, H.get, hprev]
  rw [heq]
  exact ⟨by simp, rfl⟩

/-- C7 (as the code has it): when the toolkit's issue call made for a request
fails (null pointer), the binding `IssueCredential` returns the empty string
with a `DIDKitError`, but `issueCredential` drops that error and returns the
nil map, and `GET /get-json` and `POST /offer` (on a stored offer) answer 200
with that nil map as body. The failure is assumed of the calls the request
makes only, and `json.Unmarshal` of the empty input is an error. -/
theorem issuance_failure_answers_200 (env : Env) (hdec : env.jsonDecode "" = none) :
    (∀ c o k, env.didkit_vc_issue_credential c o k = none →
      IssueCredential env c o k = ("", some (GetDIDKitError env))) ∧
    (∀ credential issuer, H.get credential "issuer" = GoValue.string issuer →
      (∀ c o k, Call.IssueCredential c o k ∈ (issueCredential env credential).2 →
        env.didkit_vc_issue_credential c o k = none) →
      (issueCredential env credential).1 = Except.ok none) ∧
    (∀ st now,
      (∀ c o k, Call.IssueCredential c o k ∈ (getJson env st now).calls →
        env.didkit_vc_issue_credential c o k = none) →
      (getJson env st now).outcome = Outcome.json 200 (GoValue.H none)) ∧
    (∀ st id subjectId offer preview issuer, id ≠ "" → subjectId ≠ "" →
      GoMap.get st.credentials id = GoValue.H (some offer) →
      GoMap.get offer "credentialPreview" = GoValue.H (some preview) →
      GoMap.get preview "issuer" = GoValue.string issuer →
      (∀ c o k, Call.IssueCredential c o k ∈ (postOffer env st id subjectId).calls →
        env.didkit_vc_issue_credential c o k = none) →
      (postOffer env st id subjectId).outcome = Outcome.json 200 (GoValue.H none)) := by
  refine ⟨?_, ?_, ?_, ?_⟩
  · intro c o k hfail
    simp only [IssueCredential, hfail]
  · intro credential issuer hiss hfail
    obtain ⟨c, o, k, heq⟩ := issueCredential_call env credential issuer hiss
    have hf := hfail c o k (by rw [heq]; simp)
    rw [heq, jsonUnmarshalH_of_failed_call env c o k hf hdec]
  · intro st now hfail
    obtain ⟨c, o, k, hmem, hout⟩ := getJson_issue_call env st now
    rw [hout, jsonUnmarshalH_of_failed_call env c o k (hfail c o k hmem) hdec]
  · intro st id subjectId offer preview issuer hid hs hoff hprev hiss hfail
    obtain ⟨c, o, k, hmem, hout⟩ :=
      postOffer_issue_call env st id subjectId offer preview issuer hid hs hoff hprev hiss
    rw [hout, jsonUnmarshalH_of_failed_call env c o k (hfail c o k hmem) hdec]

/-- Witness of C7 as amended: the issue call of the request fails. -/
theorem issuance_failure_answers_200_witness :
    sampleEnv.jsonDecode "" = none ∧
    (getJson sampleEnv emptyState (Date 2024 1 1 0 0 0 0)).outcome
      = Outcome.json 200 (GoValue.H none) :=
  ⟨by rfl,
   (issuance_failure_answers_200 sampleEnv (by rfl)).2.2.1
    emptyState (Date 2024 1 1 0 0 0 0) (fun _ _ _ _ => rfl)⟩

/-- Counterexample to C7 as stated: the toolkit reports a failure, the binding
returns the error, and `issueCredential`, `GET /get-json` and `POST /offer`
still give the success answer (200 for the handlers) with the nil map. -/
theorem issuance_failure_is_success :
    (IssueCredential sampleEnv "" "" "issuer-jwk").2 = some ⟨1, "issuance failed"⟩ ∧
    (issueCredential sampleEnv (some [("issuer", GoValue.string "did:key:z6Mk")])).1
      = Except.ok none ∧
    (getJson sampleEnv emptyState (Date 2024 1 1 0 0 0 0)).outcome.status = 200 ∧
    (postOffer sampleEnv (getJson sampleEnv emptyState (Date 2024 1 1 0 0 0 0)).state
      "did:key:z6Mk-holder-jwk" "did:key:z6MkSubject").outcome.status = 200 :=
  ⟨by decide, by rfl, by decide, by decide⟩

/-! ## The signed query string -/

theorem offerQuery_eq (id expires : String) :
    offerQuery id expires = "?id=" ++ id ++ "&expires=" ++ expires := rfl

theorem getQrQuery_eq_offerQuery (env : Env) (now : Time) :
    getQrQuery env now = offerQuery (getQrId env) (getQrExpires env now) := rfl

theorem getOffer_accepts_signed_offerQuery (env : Env) (st : State) (now : Time)
    (id hmac expires : String)
    (h : (getOffer env st now id hmac expires).outcome.status = 200) :
    hmac = generateHMAC env (offerQuery id expires) :=
  (getOffer_status_cases env st now id hmac expires h).2.2.2.2

theorem append_cons_cancel_of_not_mem {α : Type} (x : α) (a b r r' : List α)
    (ha : x ∉ a) (hb : x ∉ b) (h : a ++ x :: r = b ++ x :: r') : a = b ∧ r = r' := by
  induction a generalizing b with
  | nil =>
    cases b with
    | nil => simpa using h
    | cons y ys =>
      simp only [List.nil_append, List.cons_append, List.cons.injEq] at h
      exact absurd (by simp [h.1]) hb
  | cons c cs ih =>
    cases b with
    | nil =>
      simp only [List.nil_append, List.cons_append, List.cons.injEq] at h
      exact absurd (by simp [h.1]) ha
    | cons y ys =>
      simp only [List.cons_append, List.cons.injEq] at h
      have hcs : x ∉ cs := fun e => ha (List.mem_cons_of_mem _ e)
      have hys : x ∉ ys := fun e => hb (List.mem_cons_of_mem _ e)
      obtain ⟨e1, e2⟩ := ih ys hcs hys h.2
      exact ⟨by rw [h.1, e1], e2⟩

theorem offerQuery_data (id expires : String) :
    (offerQuery id expires).data =
      ['?', 'i', 'd', '='] ++ id.data ++
        ['&', 'e', 'x', 'p', 'i', 'r', 'e', 's'] ++ '=' :: expires.data := by
  simp [offerQuery, String.data_append]

/-- C11: the query string signed at creation and checked at redemption,
`"?id=" ++ id ++ "&expires=" ++ expires`, determines the pair: when neither
`expires` value contains `'='`, equal query strings have equal `id` and equal
`expires`, whatever characters the ids contain. -/
theorem offerQuery_injective (id1 id2 expires1 expires2 : String)
    (h1 : '=' ∉ expires1.data) (h2 : '=' ∉ expires2.data)
    (h : offerQuery id1 expires1 = offerQuery id2 expires2) :
    id1 = id2 ∧ expires1 = expires2 := by
  have hd := congrArg String.data h
  rw [offerQuery_data, offerQuery_data] at hd
  have hr := congrArg List.reverse hd
  simp only [List.reverse_append, List.reverse_cons, List.append_assoc, List.singleton_append]
    at hr
  obtain ⟨he, hrest⟩ := append_cons_cancel_of_not_mem '=' _ _ _ _
    (fun e => h1 (List.mem_reverse.mp e)) (fun e => h2 (List.mem_reverse.mp e)) hr
  have he' : expires1.data = expires2.data := List.reverse_injective he
  have hid : id1.data = id2.data := by
    have h3 := List.append_cancel_left hrest
    have h4 := List.append_cancel_right h3
    exact List.reverse_injective h4
  exact ⟨String.ext hid, String.ext he'⟩

/-- Witness of C11: an id that itself contains `&`, `=` and the text `&expires=`. -/
theorem offerQuery_injective_witness :
    '=' ∉ ("2024-01-01T00:15:00Z" : String).data ∧
    offerQuery "did:key:z6Mk&expires=a=b" "2024-01-01T00:15:00Z"
      = "?id=did:key:z6Mk&expires=a=b&expires=2024-01-01T00:15:00Z" ∧
    (("did:key:z6Mk&expires=a=b" : String) = "did:key:z6Mk&expires=a=b" ∧
      ("2024-01-01T00:15:00Z" : String) = "2024-01-01T00:15:00Z") :=
  ⟨by decide, by decide,
   offerQuery_injective "did:key:z6Mk&expires=a=b" "did:key:z6Mk&expires=a=b"
    "2024-01-01T00:15:00Z" "2024-01-01T00:15:00Z" (by decide) (by decide) (by decide)⟩

theorem offerQuery_collision_with_equals_sign :
    offerQuery "a" "b&expires=c" = offerQuery "a&expires=b" "c" := by decide

end Didkit
